import Mathlib

/-!
Verification of the interactive I/O relay of `fabric/io.py`.

The Output Relay (`output_loop`) reads one byte at a time from a channel
stream, optionally tees it to the local display with a host/stream prefix,
accumulates it into a capture buffer (a Python list of one-character
strings), and runs suffix-based prompt detection against the buffer.
The Input Relay (`input_loop`) polls local stdin and forwards bytes to the
channel until the channel reports the remote process finished.

We embed the loops as pure functions over explicit state, emitting an
event trace that records channel reads, channel writes (`chan.sendall`),
buffer mutations, interactive password requests, credential-cache updates,
and local display writes.  Python slice/del semantics on the capture list
(including the negative-index edge cases) are modelled exactly.
-/

namespace Fabric

/-- Python `char_list[-1*len(substring):]`: for `n > 0` this is the last
`min n (length)` elements; for `n = 0` the slice `[0:]` is the whole list. -/
def pyTailSlice (l : List Char) (n : Nat) : List Char :=
  if n = 0 then l else l.drop (l.length - n)

/-- Model of `io._endswith(char_list, substring)`: exact equality of the Python tail
slice with the substring (as a list of characters). -/
def _endswith (char_list : List Char) (substring : List Char) : Bool :=
  pyTailSlice char_list substring.length == substring

/-- Python `del char_list[-1*n:]` applied to a list: for `n > 0` it removes
the last `min n (length)` elements; for `n = 0` the slice `[0:]` covers the
whole list, so everything is deleted. -/
def pyDelTail (l : List Char) (n : Nat) : List Char :=
  if n = 0 then [] else l.take (l.length - n)

/-- Python truthiness of the cached password (`not password` is true for
both `None` and the empty string). -/
def pyTruthy : Option (List Char) → Bool
  | none => false
  | some l => !l.isEmpty

/-- Events observable during a relay run, in order of occurrence. -/
inductive Ev where
  /-- one byte obtained from the channel (`func(1)` / `sys.stdin.read(1)`) -/
  | read (c : Char)
  /-- call `chan.sendall(s)` -/
  | send (s : List Char)
  /-- invocation of `prompt_for_password(...)` -/
  | ask
  /-- call `set_password(p)` -/
  | setPw (p : List Char)
  /-- append of one byte to the capture buffer (`capture += byte`) -/
  | append (c : Char)
  /-- deletion `del capture[-1*n:]` -/
  | delTail (n : Nat)
  /-- rebinding `capture = capture[:n]` -/
  | sliceTo (n : Nat)
  /-- direct write to `sys.stdout` -/
  | stdoutW (s : List Char)
  /-- write to the stream's display pipe (`_flush(pipe, s)`) -/
  | pipeW (s : List Char)
deriving DecidableEq, Repr

/-- Is the event a channel write? -/
def IsSend : Ev → Bool
  | Ev.send _ => true
  | _ => false

/-- Is the event a channel read? -/
def IsRead : Ev → Bool
  | Ev.read _ => true
  | _ => false

/-- Payloads of the channel writes occurring in a trace, in order. -/
def sendsOf (evs : List Ev) : List (List Char) :=
  evs.filterMap fun e => match e with
    | Ev.send s => some s
    | _ => none

/-- Payloads of the direct local-stdout writes in a trace, in order. -/
def stdoutOf (evs : List Ev) : List (List Char) :=
  evs.filterMap fun e => match e with
    | Ev.stdoutW s => some s
    | _ => none

/-- Bytes obtained from the channel in a trace, in order. -/
def readsOf (evs : List Ev) : List Char :=
  evs.filterMap fun e => match e with
    | Ev.read c => some c
    | _ => none

/-- Configuration read by `output_loop` from the shared environment:
the two prompt strings, the printing flag for this stream, and the
display prefix `"[%s] %s: " % (env.host_string, prefix)`. -/
structure Cfg where
  sudo_prompt : List Char
  again_prompt : List Char
  printing : Bool
  hostLine : List Char
deriving DecidableEq, Repr

/-- Mutable state of one `output_loop` invocation: the capture buffer
(`none` models the `capture is None` raw-passthrough sentinel), the
`reprompt` and `initial_prefix_printed` flags, and the credential cache
(`get_password`/`set_password`). -/
structure OSt where
  capture : Option (List Char)
  reprompt : Bool
  initial_prefix_printed : Bool
  cached : Option (List Char)
deriving DecidableEq, Repr

/-- Display-pipe payloads written for one byte in capture mode
(lines 56-65 of `io.py`): the initial prefix if not yet printed, the byte
itself, and a re-primed prefix after a line break; nothing if printing is
disabled. -/
def printPayloads (cfg : Cfg) (ipp : Bool) (c : Char) : List (List Char) :=
  if cfg.printing then
    (if ipp then [] else [cfg.hostLine]) ++ [[c]]
      ++ (if c = '\n' || c = '\r' then [cfg.hostLine] else [])
  else []

/-- Display-pipe payloads written just before interactively prompting when
output is hidden (lines 86-90 of `io.py`). -/
def hiddenPromptPayloads (cfg : Cfg) (reprompt : Bool) : List (List Char) :=
  if !cfg.printing then
    [cfg.hostLine]
      ++ (if reprompt then [cfg.again_prompt ++ '\n' :: cfg.hostLine] else [])
      ++ [cfg.sudo_prompt]
  else []

/-- One iteration of `output_loop` for a byte `c` (lines 42-107 of
`io.py`).  `userPw` is the value `prompt_for_password` returns if it is
invoked.  Returns the new state and the events of this iteration. -/
def output_step (cfg : Cfg) (userPw : List Char) (st : OSt) (c : Char) :
    OSt × List Ev :=
  match st.capture with
  | none =>
    -- capture is None: open_shell mode, print directly to stdout
    (st, [Ev.read c, Ev.stdoutW [c]])
  | some cap =>
    let pEvs := (printPayloads cfg st.initial_prefix_printed c).map Ev.pipeW
    let ipp' := if cfg.printing then true else st.initial_prefix_printed
    let cap1 := cap ++ [c]
    let prompt := _endswith cap1 cfg.sudo_prompt
    let try_again := _endswith cap1 (cfg.again_prompt ++ ['\n'])
      || _endswith cap1 (cfg.again_prompt ++ ['\r', '\n'])
    if prompt then
      let password := st.cached
      let cap2 := pyDelTail cap1 cfg.sudo_prompt.length
      if !pyTruthy password || st.reprompt then
        ({ capture := some cap2, reprompt := false,
           initial_prefix_printed := ipp', cached := some userPw },
         [Ev.read c] ++ pEvs ++ [Ev.append c, Ev.delTail cfg.sudo_prompt.length]
           ++ (hiddenPromptPayloads cfg st.reprompt).map Ev.pipeW
           ++ [Ev.ask, Ev.setPw userPw, Ev.send (userPw ++ ['\n'])])
      else
        ({ capture := some cap2, reprompt := st.reprompt,
           initial_prefix_printed := ipp', cached := st.cached },
         [Ev.read c] ++ pEvs ++ [Ev.append c, Ev.delTail cfg.sudo_prompt.length,
           Ev.send (password.getD [] ++ ['\n'])])
    else if try_again then
      ({ capture := some (cap1.take cfg.again_prompt.length), reprompt := true,
         initial_prefix_printed := ipp', cached := st.cached },
       [Ev.read c] ++ pEvs ++ [Ev.append c, Ev.sliceTo cfg.again_prompt.length])
    else
      ({ capture := some cap1, reprompt := st.reprompt,
         initial_prefix_printed := ipp', cached := st.cached },
       [Ev.read c] ++ pEvs ++ [Ev.append c])

/-- The loop `output_loop` run on a finite stream of bytes (the stream ends with the
empty read that terminates the Python loop). -/
def output_loop (cfg : Cfg) (userPw : List Char) (st : OSt) :
    List Char → OSt × List Ev
  | [] => (st, [])
  | c :: cs =>
    let r := output_step cfg userPw st c
    let r2 := output_loop cfg userPw r.1 cs
    (r2.1, r.2 ++ r2.2)

/-- One top-of-loop observation of `input_loop`: the value of
`chan.exit_status_ready()`, whether a local byte is available, and (when
one is) the byte it yields. -/
structure Poll where
  finished : Bool
  have_char : Bool
  byte : Char
deriving DecidableEq, Repr

/-- The loop `input_loop` (lines 110-126 of `io.py`) over a finite sequence of
poll observations: while the channel is not finished, forward each
available byte with `chan.sendall`, echoing locally when no pty is in use
and `env.echo_stdin` is set. -/
def input_loop (using_pty echo_stdin : Bool) : List Poll → List Ev
  | [] => []
  | p :: ps =>
    if p.finished then []
    else
      (if p.have_char then
        [Ev.send [p.byte]]
          ++ (if !using_pty && echo_stdin then [Ev.stdoutW [p.byte]] else [])
      else []) ++ input_loop using_pty echo_stdin ps

/-- A byte sequence is clean from buffer `cap` if no intermediate buffer
state (after each append) has a tail equal to the sudo prompt or to the
retry prompt followed by a line terminator. -/
def clean_run (cfg : Cfg) (cap : List Char) : List Char → Bool
  | [] => true
  | c :: cs =>
    let cap1 := cap ++ [c]
    !(_endswith cap1 cfg.sudo_prompt)
      && !(_endswith cap1 (cfg.again_prompt ++ ['\n'])
           || _endswith cap1 (cfg.again_prompt ++ ['\r', '\n']))
      && clean_run cfg cap1 cs

/-! ## Basic trace lemmas -/

theorem sendsOf_append (l1 l2 : List Ev) :
    sendsOf (l1 ++ l2) = sendsOf l1 ++ sendsOf l2 :=
  List.filterMap_append l1 l2 _

theorem readsOf_append (l1 l2 : List Ev) :
    readsOf (l1 ++ l2) = readsOf l1 ++ readsOf l2 :=
  List.filterMap_append l1 l2 _

theorem stdoutOf_append (l1 l2 : List Ev) :
    stdoutOf (l1 ++ l2) = stdoutOf l1 ++ stdoutOf l2 :=
  List.filterMap_append l1 l2 _

theorem sendsOf_pipeW (l : List (List Char)) :
    sendsOf (l.map Ev.pipeW) = [] := by
  induction l with
  | nil => rfl
  | cons a t ih => exact ih

theorem readsOf_pipeW (l : List (List Char)) :
    readsOf (l.map Ev.pipeW) = [] := by
  induction l with
  | nil => rfl
  | cons a t ih => exact ih

theorem stdoutOf_pipeW (l : List (List Char)) :
    stdoutOf (l.map Ev.pipeW) = [] := by
  induction l with
  | nil => rfl
  | cons a t ih => exact ih

theorem ask_not_mem_pipeW (l : List (List Char)) : Ev.ask ∉ l.map Ev.pipeW := by
  simp

theorem sendsOf_nil : sendsOf [] = [] := rfl

theorem sendsOf_cons_send (s : List Char) (l : List Ev) :
    sendsOf (Ev.send s :: l) = s :: sendsOf l := rfl

theorem sendsOf_cons_stdoutW (s : List Char) (l : List Ev) :
    sendsOf (Ev.stdoutW s :: l) = sendsOf l := rfl

theorem stdoutOf_nil : stdoutOf [] = [] := rfl

theorem stdoutOf_cons_send (s : List Char) (l : List Ev) :
    stdoutOf (Ev.send s :: l) = stdoutOf l := rfl

theorem stdoutOf_cons_stdoutW (s : List Char) (l : List Ev) :
    stdoutOf (Ev.stdoutW s :: l) = s :: stdoutOf l := rfl

/-! ## Suffix-match decomposition

If `_endswith l s` holds and `l` is nonempty, then `s` is a genuine suffix
of `l` and the Python `del l[-len(s):]` removes exactly `s`. -/

theorem endswith_decomp (l s : List Char) (hne : l ≠ []) (h : _endswith l s = true) :
    pyDelTail l s.length ++ s = l ∧
      (pyDelTail l s.length).length + s.length = l.length := by
  have he : pyTailSlice l s.length = s := eq_of_beq h
  by_cases h0 : s.length = 0
  · exfalso
    have hs : s = [] := List.length_eq_zero.mp h0
    subst hs
    exact hne (by simpa [pyTailSlice] using he)
  · have hd : l.drop (l.length - s.length) = s := by
      simpa [pyTailSlice, h0] using he
    have hle : s.length ≤ l.length := by
      by_contra hlt
      push_neg at hlt
      have hz : l.length - s.length = 0 := by omega
      rw [hz, List.drop_zero] at hd
      subst hd
      omega
    have htk : (l.take (l.length - s.length)).length = l.length - s.length := by
      rw [List.length_take]
      omega
    constructor
    · have hsplit := List.take_append_drop (l.length - s.length) l
      rw [hd] at hsplit
      simpa [pyDelTail, h0] using hsplit
    · simp only [pyDelTail, if_neg h0]
      rw [htk]
      omega

/-! ## Branch characterizations of `output_step` -/

theorem output_step_prompt_ask (cfg : Cfg) (u cap : List Char)
    (rp ipp : Bool) (pwc : Option (List Char)) (c : Char)
    (h : _endswith (cap ++ [c]) cfg.sudo_prompt = true)
    (hb : (!pyTruthy pwc || rp) = true) :
    output_step cfg u {
        capture := some cap, reprompt := rp,
        initial_prefix_printed := ipp, cached := pwc } c =
      ({ capture := some (pyDelTail (cap ++ [c]) cfg.sudo_prompt.length),
         reprompt := false,
         initial_prefix_printed := (if cfg.printing then true else ipp),
         cached := some u },
       [Ev.read c] ++ (printPayloads cfg ipp c).map Ev.pipeW
         ++ [Ev.append c, Ev.delTail cfg.sudo_prompt.length]
         ++ (hiddenPromptPayloads cfg rp).map Ev.pipeW
         ++ [Ev.ask, Ev.setPw u, Ev.send (u ++ ['\n'])]) := by
  simp [output_step, h, hb]

theorem output_step_prompt_cache (cfg : Cfg) (u cap : List Char)
    (rp ipp : Bool) (pwc : Option (List Char)) (c : Char)
    (h : _endswith (cap ++ [c]) cfg.sudo_prompt = true)
    (hb : (!pyTruthy pwc || rp) = false) :
    output_step cfg u {
        capture := some cap, reprompt := rp,
        initial_prefix_printed := ipp, cached := pwc } c =
      ({ capture := some (pyDelTail (cap ++ [c]) cfg.sudo_prompt.length),
         reprompt := rp,
         initial_prefix_printed := (if cfg.printing then true else ipp),
         cached := pwc },
       [Ev.read c] ++ (printPayloads cfg ipp c).map Ev.pipeW
         ++ [Ev.append c, Ev.delTail cfg.sudo_prompt.length,
           Ev.send (pwc.getD [] ++ ['\n'])]) := by
  simp [output_step, h, hb]

theorem output_step_try_again (cfg : Cfg) (u cap : List Char)
    (rp ipp : Bool) (pwc : Option (List Char)) (c : Char)
    (hp : _endswith (cap ++ [c]) cfg.sudo_prompt = false)
    (ht : (_endswith (cap ++ [c]) (cfg.again_prompt ++ ['\n'])
      || _endswith (cap ++ [c]) (cfg.again_prompt ++ ['\r', '\n'])) = true) :
    output_step cfg u {
        capture := some cap, reprompt := rp,
        initial_prefix_printed := ipp, cached := pwc } c =
      ({ capture := some ((cap ++ [c]).take cfg.again_prompt.length),
         reprompt := true,
         initial_prefix_printed := (if cfg.printing then true else ipp),
         cached := pwc },
       [Ev.read c] ++ (printPayloads cfg ipp c).map Ev.pipeW
         ++ [Ev.append c, Ev.sliceTo cfg.again_prompt.length]) := by
  simp [output_step, hp, ht]

theorem output_step_plain (cfg : Cfg) (u cap : List Char)
    (rp ipp : Bool) (pwc : Option (List Char)) (c : Char)
    (hp : _endswith (cap ++ [c]) cfg.sudo_prompt = false)
    (ht : (_endswith (cap ++ [c]) (cfg.again_prompt ++ ['\n'])
      || _endswith (cap ++ [c]) (cfg.again_prompt ++ ['\r', '\n'])) = false) :
    output_step cfg u {
        capture := some cap, reprompt := rp,
        initial_prefix_printed := ipp, cached := pwc } c =
      ({ capture := some (cap ++ [c]), reprompt := rp,
         initial_prefix_printed := (if cfg.printing then true else ipp),
         cached := pwc },
       [Ev.read c] ++ (printPayloads cfg ipp c).map Ev.pipeW
         ++ [Ev.append c]) := by
  simp [output_step, hp, ht]

/-! ## Clean (prompt-free) runs -/

theorem clean_run_loop (cfg : Cfg) (u : List Char) :
    ∀ (bs cap : List Char) (rp ipp : Bool) (pwc : Option (List Char)),
    clean_run cfg cap bs = true →
    (output_loop cfg u ⟨some cap, rp, ipp, pwc⟩ bs).1 =
        ⟨some (cap ++ bs), rp, ipp || (cfg.printing && !bs.isEmpty), pwc⟩
      ∧ sendsOf (output_loop cfg u ⟨some cap, rp, ipp, pwc⟩ bs).2 = []
      ∧ Ev.ask ∉ (output_loop cfg u ⟨some cap, rp, ipp, pwc⟩ bs).2 := by
  intro bs
  induction bs with
  | nil =>
    intro cap rp ipp pwc _
    simp [output_loop, sendsOf]
  | cons c cs ih =>
    intro cap rp ipp pwc h
    simp only [clean_run, Bool.and_eq_true, Bool.not_eq_true'] at h
    obtain ⟨⟨hp, ht⟩, hcl⟩ := h
    have hstep := output_step_plain cfg u cap rp ipp pwc c hp ht
    have hrw : output_loop cfg u ⟨some cap, rp, ipp, pwc⟩ (c :: cs) =
        ((output_loop cfg u ⟨some (cap ++ [c]), rp,
            (if cfg.printing then true else ipp), pwc⟩ cs).1,
         ([Ev.read c] ++ (printPayloads cfg ipp c).map Ev.pipeW ++ [Ev.append c])
           ++ (output_loop cfg u ⟨some (cap ++ [c]), rp,
            (if cfg.printing then true else ipp), pwc⟩ cs).2) := by
      rw [output_loop, hstep]
    obtain ⟨ih1, ih2, ih3⟩ := ih (cap ++ [c]) rp
      (if cfg.printing then true else ipp) pwc hcl
    refine ⟨?_, ?_, ?_⟩
    · rw [hrw, ih1]
      have hc : (cap ++ [c]) ++ cs = cap ++ (c :: cs) := by simp
      have hi : ((if cfg.printing then true else ipp) || (cfg.printing && !cs.isEmpty))
          = (ipp || (cfg.printing && !(c :: cs).isEmpty)) := by
        cases cfg.printing <;> simp
      rw [hc, hi]
    · rw [hrw]
      simp only [sendsOf_append, sendsOf_pipeW, ih2, List.append_nil]
      simp [sendsOf]
    · rw [hrw]
      intro hmem
      rcases List.mem_append.mp hmem with h1 | h1
      · rcases List.mem_append.mp h1 with h2 | h2
        · rcases List.mem_append.mp h2 with h3 | h3
          · simp at h3
          · exact ask_not_mem_pipeW _ h3
        · simp at h2
      · exact ih3 h1

/-- C3: in capture mode, a byte stream none of whose intermediate buffer
states matches the password prompt or the retry prompt (plus a line
terminator) is accumulated exactly: the final capture buffer is the
initial buffer followed by all received bytes in order, with nothing
lost, added, or reordered. -/
theorem capture_accumulates_exactly (cfg : Cfg) (u cap bs : List Char)
    (rp ipp : Bool) (pwc : Option (List Char))
    (h : clean_run cfg cap bs = true) :
    (output_loop cfg u ⟨some cap, rp, ipp, pwc⟩ bs).1.capture = some (cap ++ bs) := by
  rw [(clean_run_loop cfg u bs cap rp ipp pwc h).1]

/-- C2: when appending a received byte makes the capture buffer's tail
equal the configured sudo prompt, the iteration removes exactly
`len(sudo_prompt)` trailing bytes (the stripped buffer plus the prompt
reassembles the pre-strip buffer, whose length is one more than the old
buffer's), and the iteration's only channel write is a password followed
by a newline, issued as the iteration's very last event — in particular
strictly after the `del capture[-len:]` truncation, which occurs in the
trace, and before any further channel read (this iteration's only read is
the triggering byte, at the head of the trace). -/
theorem prompt_match_strips_then_sends (cfg : Cfg) (u cap : List Char)
    (rp ipp : Bool) (pwc : Option (List Char)) (c : Char)
    (h : _endswith (cap ++ [c]) cfg.sudo_prompt = true) :
    (∃ cap2, (output_step cfg u ⟨some cap, rp, ipp, pwc⟩ c).1.capture = some cap2
       ∧ cap2 ++ cfg.sudo_prompt = cap ++ [c]
       ∧ cap2.length + cfg.sudo_prompt.length = cap.length + 1)
    ∧ (∃ pw, sendsOf (output_step cfg u ⟨some cap, rp, ipp, pwc⟩ c).2 = [pw ++ ['\n']]
       ∧ (output_step cfg u ⟨some cap, rp, ipp, pwc⟩ c).2.getLast?
           = some (Ev.send (pw ++ ['\n'])))
    ∧ Ev.delTail cfg.sudo_prompt.length ∈ (output_step cfg u ⟨some cap, rp, ipp, pwc⟩ c).2
    ∧ readsOf (output_step cfg u ⟨some cap, rp, ipp, pwc⟩ c).2 = [c] := by
  have hne : cap ++ [c] ≠ [] := by simp
  obtain ⟨hdec, hlen⟩ := endswith_decomp (cap ++ [c]) cfg.sudo_prompt hne h
  have hlen' : (pyDelTail (cap ++ [c]) cfg.sudo_prompt.length).length
      + cfg.sudo_prompt.length = cap.length + 1 := by
    simpa using hlen
  rcases Bool.eq_false_or_eq_true (!pyTruthy pwc || rp) with hb | hb
  · rw [output_step_prompt_ask cfg u cap rp ipp pwc c h hb]
    refine ⟨⟨_, rfl, hdec, hlen'⟩, ⟨u, ?_, ?_⟩, ?_, ?_⟩
    · simp only [sendsOf_append, sendsOf_pipeW]
      simp [sendsOf]
    · have hsh : [Ev.read c] ++ (printPayloads cfg ipp c).map Ev.pipeW
          ++ [Ev.append c, Ev.delTail cfg.sudo_prompt.length]
          ++ (hiddenPromptPayloads cfg rp).map Ev.pipeW
          ++ [Ev.ask, Ev.setPw u, Ev.send (u ++ ['\n'])]
          = ([Ev.read c] ++ (printPayloads cfg ipp c).map Ev.pipeW
            ++ [Ev.append c, Ev.delTail cfg.sudo_prompt.length]
            ++ (hiddenPromptPayloads cfg rp).map Ev.pipeW
            ++ [Ev.ask, Ev.setPw u]) ++ [Ev.send (u ++ ['\n'])] := by simp
      rw [hsh, List.getLast?_concat]
    · simp
    · simp only [readsOf_append, readsOf_pipeW]
      simp [readsOf]
  · rw [output_step_prompt_cache cfg u cap rp ipp pwc c h hb]
    refine ⟨⟨_, rfl, hdec, hlen'⟩, ⟨pwc.getD [], ?_, ?_⟩, ?_, ?_⟩
    · simp only [sendsOf_append, sendsOf_pipeW]
      simp [sendsOf]
    · have hsh : [Ev.read c] ++ (printPayloads cfg ipp c).map Ev.pipeW
          ++ [Ev.append c, Ev.delTail cfg.sudo_prompt.length,
            Ev.send (pwc.getD [] ++ ['\n'])]
          = ([Ev.read c] ++ (printPayloads cfg ipp c).map Ev.pipeW
            ++ [Ev.append c, Ev.delTail cfg.sudo_prompt.length])
            ++ [Ev.send (pwc.getD [] ++ ['\n'])] := by simp
      rw [hsh, List.getLast?_concat]
    · simp
    · simp only [readsOf_append, readsOf_pipeW]
      simp [readsOf]

/-- C5: on a password-prompt match with a non-empty cached password and the
`reprompt` flag clear, the iteration never invokes `prompt_for_password`,
sends exactly the cached password followed by a newline as its final
event, and leaves the credential cache unchanged. -/
theorem cached_password_sent_without_ask (cfg : Cfg) (u cap p : List Char)
    (ipp : Bool) (c : Char) (hne : p ≠ [])
    (h : _endswith (cap ++ [c]) cfg.sudo_prompt = true) :
    Ev.ask ∉ (output_step cfg u ⟨some cap, false, ipp, some p⟩ c).2
    ∧ (output_step cfg u ⟨some cap, false, ipp, some p⟩ c).2.getLast?
        = some (Ev.send (p ++ ['\n']))
    ∧ (output_step cfg u ⟨some cap, false, ipp, some p⟩ c).1.cached = some p := by
  have hb : (!pyTruthy (some p) || false) = false := by
    cases p with
    | nil => exact absurd rfl hne
    | cons a t => simp [pyTruthy]
  rw [output_step_prompt_cache cfg u cap false ipp (some p) c h hb]
  refine ⟨?_, ?_, rfl⟩
  · intro hmem
    rcases List.mem_append.mp hmem with h1 | h1
    · rcases List.mem_append.mp h1 with h2 | h2
      · simp at h2
      · exact ask_not_mem_pipeW _ h2
    · simp at h1
  · have hsh : [Ev.read c] ++ (printPayloads cfg ipp c).map Ev.pipeW
        ++ [Ev.append c, Ev.delTail cfg.sudo_prompt.length,
          Ev.send ((some p).getD [] ++ ['\n'])]
        = ([Ev.read c] ++ (printPayloads cfg ipp c).map Ev.pipeW
          ++ [Ev.append c, Ev.delTail cfg.sudo_prompt.length])
          ++ [Ev.send ((some p).getD [] ++ ['\n'])] := by simp
    rw [hsh, List.getLast?_concat]
    rfl

/-- C9: an empty-string cached password is treated like an absent one: on a
password-prompt match with cached password `""` and `reprompt` clear, the
iteration still invokes `prompt_for_password`, caches the freshly entered
password, and sends that fresh password (not the empty cached value). -/
theorem empty_cached_password_still_asks (cfg : Cfg) (u cap : List Char)
    (ipp : Bool) (c : Char)
    (h : _endswith (cap ++ [c]) cfg.sudo_prompt = true) :
    Ev.ask ∈ (output_step cfg u ⟨some cap, false, ipp, some []⟩ c).2
    ∧ (output_step cfg u ⟨some cap, false, ipp, some []⟩ c).1.cached = some u
    ∧ (output_step cfg u ⟨some cap, false, ipp, some []⟩ c).2.getLast?
        = some (Ev.send (u ++ ['\n'])) := by
  have hb : (!pyTruthy (some []) || false) = true := by simp [pyTruthy]
  rw [output_step_prompt_ask cfg u cap false ipp (some []) c h hb]
  refine ⟨?_, rfl, ?_⟩
  · simp
  · have hsh : [Ev.read c] ++ (printPayloads cfg ipp c).map Ev.pipeW
        ++ [Ev.append c, Ev.delTail cfg.sudo_prompt.length]
        ++ (hiddenPromptPayloads cfg false).map Ev.pipeW
        ++ [Ev.ask, Ev.setPw u, Ev.send (u ++ ['\n'])]
        = ([Ev.read c] ++ (printPayloads cfg ipp c).map Ev.pipeW
          ++ [Ev.append c, Ev.delTail cfg.sudo_prompt.length]
          ++ (hiddenPromptPayloads cfg false).map Ev.pipeW
          ++ [Ev.ask, Ev.setPw u]) ++ [Ev.send (u ++ ['\n'])] := by simp
    rw [hsh, List.getLast?_concat]

/-- C10: when a received byte makes the buffer's tail match both the sudo
prompt and the retry prompt (plus newline) simultaneously, only the
password-prompt branch runs: the prompt is stripped (the stripped buffer
plus the sudo prompt reassembles the appended buffer), a password write is
the final event, the retry slicing never occurs, and `reprompt` ends the
iteration clear rather than set. -/
theorem prompt_branch_shadows_retry (cfg : Cfg) (u cap : List Char)
    (rp ipp : Bool) (pwc : Option (List Char)) (c : Char)
    (hp : _endswith (cap ++ [c]) cfg.sudo_prompt = true)
    (_ht : (_endswith (cap ++ [c]) (cfg.again_prompt ++ ['\n'])
      || _endswith (cap ++ [c]) (cfg.again_prompt ++ ['\r', '\n'])) = true) :
    (∃ cap2, (output_step cfg u ⟨some cap, rp, ipp, pwc⟩ c).1.capture = some cap2
       ∧ cap2 ++ cfg.sudo_prompt = cap ++ [c])
    ∧ (output_step cfg u ⟨some cap, rp, ipp, pwc⟩ c).1.reprompt = false
    ∧ (∃ pw, (output_step cfg u ⟨some cap, rp, ipp, pwc⟩ c).2.getLast?
        = some (Ev.send (pw ++ ['\n'])))
    ∧ Ev.sliceTo cfg.again_prompt.length ∉ (output_step cfg u ⟨some cap, rp, ipp, pwc⟩ c).2 := by
  have hne : cap ++ [c] ≠ [] := by simp
  obtain ⟨hdec, _⟩ := endswith_decomp (cap ++ [c]) cfg.sudo_prompt hne hp
  rcases Bool.eq_false_or_eq_true (!pyTruthy pwc || rp) with hb | hb
  · rw [output_step_prompt_ask cfg u cap rp ipp pwc c hp hb]
    refine ⟨⟨_, rfl, hdec⟩, rfl, ⟨u, ?_⟩, ?_⟩
    · have hsh : [Ev.read c] ++ (printPayloads cfg ipp c).map Ev.pipeW
          ++ [Ev.append c, Ev.delTail cfg.sudo_prompt.length]
          ++ (hiddenPromptPayloads cfg rp).map Ev.pipeW
          ++ [Ev.ask, Ev.setPw u, Ev.send (u ++ ['\n'])]
          = ([Ev.read c] ++ (printPayloads cfg ipp c).map Ev.pipeW
            ++ [Ev.append c, Ev.delTail cfg.sudo_prompt.length]
            ++ (hiddenPromptPayloads cfg rp).map Ev.pipeW
            ++ [Ev.ask, Ev.setPw u]) ++ [Ev.send (u ++ ['\n'])] := by simp
      rw [hsh, List.getLast?_concat]
    · intro hmem
      rcases List.mem_append.mp hmem with h1 | h1
      · rcases List.mem_append.mp h1 with h2 | h2
        · rcases List.mem_append.mp h2 with h3 | h3
          · rcases List.mem_append.mp h3 with h4 | h4
            · simp at h4
            · rcases List.mem_map.mp h4 with ⟨a, _, ha⟩
              exact Ev.noConfusion ha
          · simp at h3
        · rcases List.mem_map.mp h2 with ⟨a, _, ha⟩
          exact Ev.noConfusion ha
      · simp at h1
  · have hrp : rp = false := by
      rcases Bool.or_eq_false_iff.mp hb with ⟨_, h2⟩
      exact h2
    rw [output_step_prompt_cache cfg u cap rp ipp pwc c hp hb]
    refine ⟨⟨_, rfl, hdec⟩, hrp, ⟨pwc.getD [], ?_⟩, ?_⟩
    · have hsh : [Ev.read c] ++ (printPayloads cfg ipp c).map Ev.pipeW
          ++ [Ev.append c, Ev.delTail cfg.sudo_prompt.length,
            Ev.send (pwc.getD [] ++ ['\n'])]
          = ([Ev.read c] ++ (printPayloads cfg ipp c).map Ev.pipeW
            ++ [Ev.append c, Ev.delTail cfg.sudo_prompt.length])
            ++ [Ev.send (pwc.getD [] ++ ['\n'])] := by simp
      rw [hsh, List.getLast?_concat]
    · intro hmem
      rcases List.mem_append.mp hmem with h1 | h1
      · rcases List.mem_append.mp h1 with h2 | h2
        · simp at h2
        · rcases List.mem_map.mp h2 with ⟨a, _, ha⟩
          exact Ev.noConfusion ha
      · simp at h1

/-- Claim C1 is false on the code: with sudo prompt `"P:"`, retry prompt
`"try"`, capture buffer `"x"` followed by the retry sequence `"try\n"`,
the retry handling `capture = capture[:len(env.again_prompt)]` leaves
`"xtr"` — the byte `'x'` preceding the retry string is not preserved and
the buffer does not end just after the retry string (`"xtry"`). -/
theorem retry_truncation_counterexample :
    (output_step ⟨['P', ':'], ['t', 'r', 'y'], false, []⟩ ['u']
        ⟨some ['x', 't', 'r', 'y'], false, false, some ['s']⟩ '\n').1.capture
      = some ['x', 't', 'r']
    ∧ ['x', 't', 'r'] ≠ ['x'] ++ ['t', 'r', 'y'] := by decide

/-- C1 (amended): on a retry match (buffer tail equals the retry string
plus `\n` or `\r\n`, and no sudo-prompt match), the code replaces the
capture buffer with the first `len(again_prompt)` bytes of the appended
buffer — a freshly sliced list (`capture = capture[:len(env.again_prompt)]`),
not an in-place truncation — and sets `reprompt`.  This agrees with
"truncate back to just after the retry string, discarding only the
trailing newline" exactly when the retry occurrence starts at the very
beginning of the buffer. -/
theorem retry_truncation_amended (cfg : Cfg) (u cap : List Char)
    (rp ipp : Bool) (pwc : Option (List Char)) (c : Char)
    (hp : _endswith (cap ++ [c]) cfg.sudo_prompt = false)
    (ht : (_endswith (cap ++ [c]) (cfg.again_prompt ++ ['\n'])
      || _endswith (cap ++ [c]) (cfg.again_prompt ++ ['\r', '\n'])) = true) :
    (output_step cfg u ⟨some cap, rp, ipp, pwc⟩ c).1.capture
        = some ((cap ++ [c]).take cfg.again_prompt.length)
    ∧ (output_step cfg u ⟨some cap, rp, ipp, pwc⟩ c).1.reprompt = true
    ∧ (cap ++ [c] = cfg.again_prompt ++ ['\n'] →
        (output_step cfg u ⟨some cap, rp, ipp, pwc⟩ c).1.capture
          = some cfg.again_prompt) := by
  rw [output_step_try_again cfg u cap rp ipp pwc c hp ht]
  refine ⟨rfl, rfl, ?_⟩
  intro heq
  rw [heq]
  simp

/-! ## Composition of runs -/

theorem output_loop_append (cfg : Cfg) (u : List Char) :
    ∀ (l1 l2 : List Char) (st : OSt),
    output_loop cfg u st (l1 ++ l2) =
      ((output_loop cfg u (output_loop cfg u st l1).1 l2).1,
       (output_loop cfg u st l1).2
         ++ (output_loop cfg u (output_loop cfg u st l1).1 l2).2) := by
  intro l1
  induction l1 with
  | nil => intro l2 st; simp [output_loop]
  | cons c cs ih =>
    intro l2 st
    rw [List.cons_append, output_loop, output_loop, ih]
    simp [List.append_assoc]

/-- C4: after a retry match (retry string plus a line terminator observed,
with no simultaneous sudo-prompt match) followed by any stretch of bytes
matching neither prompt, the next sudo-prompt match invokes
`prompt_for_password` even though the cached password is arbitrary (in
particular it may be present and non-empty), caches the newly entered
password, and clears the `reprompt` flag. -/
theorem retry_then_prompt_forces_ask (cfg : Cfg) (u cap mid : List Char)
    (rp ipp : Bool) (pwc : Option (List Char)) (c0 c1 : Char)
    (hp0 : _endswith (cap ++ [c0]) cfg.sudo_prompt = false)
    (ht0 : (_endswith (cap ++ [c0]) (cfg.again_prompt ++ ['\n'])
      || _endswith (cap ++ [c0]) (cfg.again_prompt ++ ['\r', '\n'])) = true)
    (hmid : clean_run cfg ((cap ++ [c0]).take cfg.again_prompt.length) mid = true)
    (hp1 : _endswith (((cap ++ [c0]).take cfg.again_prompt.length ++ mid) ++ [c1])
        cfg.sudo_prompt = true) :
    Ev.ask ∈ (output_loop cfg u ⟨some cap, rp, ipp, pwc⟩ (c0 :: (mid ++ [c1]))).2
    ∧ (output_loop cfg u ⟨some cap, rp, ipp, pwc⟩ (c0 :: (mid ++ [c1]))).1.cached
        = some u
    ∧ (output_loop cfg u ⟨some cap, rp, ipp, pwc⟩ (c0 :: (mid ++ [c1]))).1.reprompt
        = false := by
  have hstep0 := output_step_try_again cfg u cap rp ipp pwc c0 hp0 ht0
  have hloop : output_loop cfg u ⟨some cap, rp, ipp, pwc⟩ (c0 :: (mid ++ [c1])) =
      ((output_loop cfg u ⟨some ((cap ++ [c0]).take cfg.again_prompt.length), true,
          (if cfg.printing then true else ipp), pwc⟩ (mid ++ [c1])).1,
       ([Ev.read c0] ++ (printPayloads cfg ipp c0).map Ev.pipeW
         ++ [Ev.append c0, Ev.sliceTo cfg.again_prompt.length])
         ++ (output_loop cfg u ⟨some ((cap ++ [c0]).take cfg.again_prompt.length), true,
          (if cfg.printing then true else ipp), pwc⟩ (mid ++ [c1])).2) := by
    rw [output_loop, hstep0]
  obtain ⟨hm1, _, _⟩ := clean_run_loop cfg u mid
    ((cap ++ [c0]).take cfg.again_prompt.length) true
    (if cfg.printing then true else ipp) pwc hmid
  have hb : (!pyTruthy pwc || true) = true := by simp
  have hstep1 := output_step_prompt_ask cfg u
    ((cap ++ [c0]).take cfg.again_prompt.length ++ mid) true
    ((if cfg.printing then true else ipp) || (cfg.printing && !mid.isEmpty)) pwc c1 hp1 hb
  have hsplit := output_loop_append cfg u mid [c1]
    ⟨some ((cap ++ [c0]).take cfg.again_prompt.length), true,
      (if cfg.printing then true else ipp), pwc⟩
  rw [hm1] at hsplit
  have hone : output_loop cfg u
      ⟨some ((cap ++ [c0]).take cfg.again_prompt.length ++ mid), true,
        (if cfg.printing then true else ipp) || (cfg.printing && !mid.isEmpty), pwc⟩ [c1] =
      ((output_step cfg u
          ⟨some ((cap ++ [c0]).take cfg.again_prompt.length ++ mid), true,
            (if cfg.printing then true else ipp) || (cfg.printing && !mid.isEmpty), pwc⟩ c1).1,
       (output_step cfg u
          ⟨some ((cap ++ [c0]).take cfg.again_prompt.length ++ mid), true,
            (if cfg.printing then true else ipp) || (cfg.printing && !mid.isEmpty), pwc⟩ c1).2
         ++ []) := by
    rw [output_loop, output_loop]
  rw [hstep1] at hone
  rw [hloop, hsplit, hone]
  refine ⟨?_, rfl, rfl⟩
  apply List.mem_append.mpr
  right
  apply List.mem_append.mpr
  right
  simp

theorem sendsOf_raw_trace (bs : List Char) :
    sendsOf (bs.flatMap fun c => [Ev.read c, Ev.stdoutW [c]]) = [] := by
  induction bs with
  | nil => rfl
  | cons c cs ih => simpa [sendsOf, List.flatMap_cons] using ih

theorem ask_not_mem_raw_trace (bs : List Char) :
    Ev.ask ∉ bs.flatMap fun c => [Ev.read c, Ev.stdoutW [c]] := by
  induction bs with
  | nil => simp
  | cons c cs ih =>
    intro hmem
    rw [List.flatMap_cons] at hmem
    rcases List.mem_append.mp hmem with h1 | h1
    · simp at h1
    · exact ih h1

/-- C6: in raw-passthrough mode (`capture is None`), every received byte is
written directly to local stdout with nothing else: the run's trace is
exactly a read/stdout-write pair per byte in order (hence no prompt
detection events, no channel write, no interactive prompt) and the state —
including the credential cache — is unchanged. -/
theorem raw_passthrough_only_echoes (cfg : Cfg) (u : List Char) (st : OSt)
    (h : st.capture = none) (bs : List Char) :
    output_loop cfg u st bs
      = (st, bs.flatMap fun c => [Ev.read c, Ev.stdoutW [c]])
    ∧ sendsOf (output_loop cfg u st bs).2 = []
    ∧ Ev.ask ∉ (output_loop cfg u st bs).2 := by
  have hmain : output_loop cfg u st bs
      = (st, bs.flatMap fun c => [Ev.read c, Ev.stdoutW [c]]) := by
    induction bs with
    | nil => simp [output_loop]
    | cons c cs ih =>
      have hstep : output_step cfg u st c = (st, [Ev.read c, Ev.stdoutW [c]]) := by
        simp [output_step, h]
      rw [output_loop, hstep, ih]
      simp
  refine ⟨hmain, ?_, ?_⟩
  · rw [hmain]
    exact sendsOf_raw_trace bs
  · rw [hmain]
    exact ask_not_mem_raw_trace bs

/-- C7: the Input Relay forwards exactly the bytes reported available
before the first poll at which the channel is finished — each one in
arrival order as its own `chan.sendall` — and issues no channel write at
or after the poll that observes completion (buffered input remaining at
termination is never drained). -/
theorem input_loop_forwards_until_finished (using_pty echo_stdin : Bool)
    (ps : List Poll) :
    sendsOf (input_loop using_pty echo_stdin ps)
      = ((ps.takeWhile fun p => !p.finished).filter fun p => p.have_char).map
          fun p => [p.byte] := by
  induction ps with
  | nil => rfl
  | cons p ps ih =>
    rcases Bool.eq_false_or_eq_true p.finished with hf | hf
    · simp [input_loop, hf, sendsOf_nil]
    · rcases Bool.eq_false_or_eq_true p.have_char with hc | hc
      · rcases Bool.eq_false_or_eq_true (!using_pty && echo_stdin) with he | he
        · simp [input_loop, hf, hc, he, sendsOf_append, sendsOf_cons_send,
            sendsOf_cons_stdoutW, sendsOf_nil, List.takeWhile_cons,
            List.filter_cons, ih]
        · simp [input_loop, hf, hc, he, sendsOf_append, sendsOf_cons_send,
            sendsOf_cons_stdoutW, sendsOf_nil, List.takeWhile_cons,
            List.filter_cons, ih]
      · simp [input_loop, hf, hc, sendsOf_append, sendsOf_nil,
          List.takeWhile_cons, List.filter_cons, ih]

/-- C8: per forwarded byte, the Input Relay echoes to local stdout exactly
when no remote pty is in use and `env.echo_stdin` is set: with echo
enabled the stdout writes are exactly the channel writes (same bytes, same
order); with a pty in use or echo configured off there are none. -/
theorem input_loop_echo_policy (using_pty echo_stdin : Bool) (ps : List Poll) :
    stdoutOf (input_loop using_pty echo_stdin ps)
      = if !using_pty && echo_stdin
          then sendsOf (input_loop using_pty echo_stdin ps)
          else [] := by
  induction ps with
  | nil => simp [input_loop, sendsOf, stdoutOf]
  | cons p ps ih =>
    rcases Bool.eq_false_or_eq_true p.finished with hf | hf
    · simp [input_loop, hf, sendsOf_nil, stdoutOf_nil]
    · rcases Bool.eq_false_or_eq_true (!using_pty && echo_stdin) with he | he
      · rw [he] at ih
        simp only [if_true] at ih
        rcases Bool.eq_false_or_eq_true p.have_char with hc | hc
        · simp [input_loop, hf, hc, he, stdoutOf_append, sendsOf_append,
            stdoutOf_cons_send, stdoutOf_cons_stdoutW, stdoutOf_nil,
            sendsOf_cons_send, sendsOf_cons_stdoutW, sendsOf_nil, ih]
        · simp [input_loop, hf, hc, he, stdoutOf_append, sendsOf_append,
            stdoutOf_nil, sendsOf_nil, ih]
      · rw [he] at ih
        simp at ih
        rcases Bool.eq_false_or_eq_true p.have_char with hc | hc
        · simp [input_loop, hf, hc, he, stdoutOf_append,
            stdoutOf_cons_send, stdoutOf_cons_stdoutW, stdoutOf_nil, ih]
        · simp [input_loop, hf, hc, he, stdoutOf_append, stdoutOf_nil, ih]

/-! ## Concrete witnesses

Each witness instantiates the corresponding theorem at a concrete
configuration and input, discharging its hypotheses by computation. -/

/-- Witness for C2: sudo prompt `"P:"`, buffer `"aP"`, byte `':'`,
cached password `"s"`. -/
theorem prompt_match_strips_then_sends_witness :
    (∃ cap2, (output_step ⟨['P', ':'], ['t', 'r', 'y'], false, []⟩ ['u']
        ⟨some ['a', 'P'], false, false, some ['s']⟩ ':').1.capture = some cap2
       ∧ cap2 ++ (Cfg.mk ['P', ':'] ['t', 'r', 'y'] false []).sudo_prompt
           = ['a', 'P'] ++ [':']
       ∧ cap2.length + (Cfg.mk ['P', ':'] ['t', 'r', 'y'] false []).sudo_prompt.length
           = (['a', 'P'] : List Char).length + 1)
    ∧ (∃ pw, sendsOf (output_step ⟨['P', ':'], ['t', 'r', 'y'], false, []⟩ ['u']
        ⟨some ['a', 'P'], false, false, some ['s']⟩ ':').2 = [pw ++ ['\n']]
       ∧ (output_step ⟨['P', ':'], ['t', 'r', 'y'], false, []⟩ ['u']
        ⟨some ['a', 'P'], false, false, some ['s']⟩ ':').2.getLast?
           = some (Ev.send (pw ++ ['\n'])))
    ∧ Ev.delTail (Cfg.mk ['P', ':'] ['t', 'r', 'y'] false []).sudo_prompt.length
        ∈ (output_step ⟨['P', ':'], ['t', 'r', 'y'], false, []⟩ ['u']
        ⟨some ['a', 'P'], false, false, some ['s']⟩ ':').2
    ∧ readsOf (output_step ⟨['P', ':'], ['t', 'r', 'y'], false, []⟩ ['u']
        ⟨some ['a', 'P'], false, false, some ['s']⟩ ':').2 = [':'] :=
  prompt_match_strips_then_sends ⟨['P', ':'], ['t', 'r', 'y'], false, []⟩
    ['u'] ['a', 'P'] false false (some ['s']) ':' (by decide)

/-- Witness for C3: prompt-free bytes `"hi"` appended to buffer `"x"`. -/
theorem capture_accumulates_exactly_witness :
    (output_loop ⟨['P', ':'], ['t', 'r', 'y'], false, []⟩ ['u']
        ⟨some ['x'], false, false, some ['s']⟩ ['h', 'i']).1.capture
      = some (['x'] ++ ['h', 'i']) :=
  capture_accumulates_exactly ⟨['P', ':'], ['t', 'r', 'y'], false, []⟩
    ['u'] ['x'] ['h', 'i'] false false (some ['s']) (by decide)

/-- Witness for C4: retry `"try\n"` observed, then `"P:"` matched while a
non-empty password `"s"` is cached — the interactive prompt still runs. -/
theorem retry_then_prompt_forces_ask_witness :
    Ev.ask ∈ (output_loop ⟨['P', ':'], ['t', 'r', 'y'], false, []⟩ ['u']
        ⟨some ['t', 'r', 'y'], false, false, some ['s']⟩ ('\n' :: (['P'] ++ [':']))).2
    ∧ (output_loop ⟨['P', ':'], ['t', 'r', 'y'], false, []⟩ ['u']
        ⟨some ['t', 'r', 'y'], false, false, some ['s']⟩ ('\n' :: (['P'] ++ [':']))).1.cached
        = some ['u']
    ∧ (output_loop ⟨['P', ':'], ['t', 'r', 'y'], false, []⟩ ['u']
        ⟨some ['t', 'r', 'y'], false, false, some ['s']⟩ ('\n' :: (['P'] ++ [':']))).1.reprompt
        = false :=
  retry_then_prompt_forces_ask ⟨['P', ':'], ['t', 'r', 'y'], false, []⟩
    ['u'] ['t', 'r', 'y'] ['P'] false false (some ['s']) '\n' ':'
    (by decide) (by decide) (by decide) (by decide)

/-- Witness for C5: cached password `"s"`, `reprompt` clear, prompt match. -/
theorem cached_password_sent_without_ask_witness :
    Ev.ask ∉ (output_step ⟨['P', ':'], ['t', 'r', 'y'], false, []⟩ ['u']
        ⟨some ['a', 'P'], false, false, some ['s']⟩ ':').2
    ∧ (output_step ⟨['P', ':'], ['t', 'r', 'y'], false, []⟩ ['u']
        ⟨some ['a', 'P'], false, false, some ['s']⟩ ':').2.getLast?
        = some (Ev.send (['s'] ++ ['\n']))
    ∧ (output_step ⟨['P', ':'], ['t', 'r', 'y'], false, []⟩ ['u']
        ⟨some ['a', 'P'], false, false, some ['s']⟩ ':').1.cached = some ['s'] :=
  cached_password_sent_without_ask ⟨['P', ':'], ['t', 'r', 'y'], false, []⟩
    ['u'] ['a', 'P'] ['s'] false ':' (by decide) (by decide)

/-- Witness for C6: raw-passthrough state fed the bytes `"P:"` (which
contain the configured prompt as a substring). -/
theorem raw_passthrough_only_echoes_witness :
    output_loop ⟨['P', ':'], ['t', 'r', 'y'], false, []⟩ ['u']
        ⟨none, false, false, some ['s']⟩ ['P', ':']
      = (⟨none, false, false, some ['s']⟩,
         (['P', ':'] : List Char).flatMap fun c => [Ev.read c, Ev.stdoutW [c]])
    ∧ sendsOf (output_loop ⟨['P', ':'], ['t', 'r', 'y'], false, []⟩ ['u']
        ⟨none, false, false, some ['s']⟩ ['P', ':']).2 = []
    ∧ Ev.ask ∉ (output_loop ⟨['P', ':'], ['t', 'r', 'y'], false, []⟩ ['u']
        ⟨none, false, false, some ['s']⟩ ['P', ':']).2 :=
  raw_passthrough_only_echoes ⟨['P', ':'], ['t', 'r', 'y'], false, []⟩
    ['u'] ⟨none, false, false, some ['s']⟩ rfl ['P', ':']

/-- Witness for C9: cached password is the empty string, `reprompt` clear,
prompt match — the interactive prompt still runs. -/
theorem empty_cached_password_still_asks_witness :
    Ev.ask ∈ (output_step ⟨['P', ':'], ['t', 'r', 'y'], false, []⟩ ['u']
        ⟨some ['P'], false, false, some []⟩ ':').2
    ∧ (output_step ⟨['P', ':'], ['t', 'r', 'y'], false, []⟩ ['u']
        ⟨some ['P'], false, false, some []⟩ ':').1.cached = some ['u']
    ∧ (output_step ⟨['P', ':'], ['t', 'r', 'y'], false, []⟩ ['u']
        ⟨some ['P'], false, false, some []⟩ ':').2.getLast?
        = some (Ev.send (['u'] ++ ['\n'])) :=
  empty_cached_password_still_asks ⟨['P', ':'], ['t', 'r', 'y'], false, []⟩
    ['u'] ['P'] false ':' (by decide)

/-- Witness for C10: sudo prompt `"again\n"`, retry prompt `"gain"`; the
byte `'\n'` appended to buffer `"again"` matches both patterns at once. -/
theorem prompt_branch_shadows_retry_witness :
    (∃ cap2, (output_step ⟨['a', 'g', 'a', 'i', 'n', '\n'], ['g', 'a', 'i', 'n'], false, []⟩
        ['u'] ⟨some ['a', 'g', 'a', 'i', 'n'], false, false, some ['s']⟩ '\n').1.capture
          = some cap2
       ∧ cap2 ++ (Cfg.mk ['a', 'g', 'a', 'i', 'n', '\n'] ['g', 'a', 'i', 'n'] false []).sudo_prompt
           = ['a', 'g', 'a', 'i', 'n'] ++ ['\n'])
    ∧ (output_step ⟨['a', 'g', 'a', 'i', 'n', '\n'], ['g', 'a', 'i', 'n'], false, []⟩
        ['u'] ⟨some ['a', 'g', 'a', 'i', 'n'], false, false, some ['s']⟩ '\n').1.reprompt
        = false
    ∧ (∃ pw, (output_step ⟨['a', 'g', 'a', 'i', 'n', '\n'], ['g', 'a', 'i', 'n'], false, []⟩
        ['u'] ⟨some ['a', 'g', 'a', 'i', 'n'], false, false, some ['s']⟩ '\n').2.getLast?
          = some (Ev.send (pw ++ ['\n'])))
    ∧ Ev.sliceTo (Cfg.mk ['a', 'g', 'a', 'i', 'n', '\n'] ['g', 'a', 'i', 'n'] false []).again_prompt.length
        ∉ (output_step ⟨['a', 'g', 'a', 'i', 'n', '\n'], ['g', 'a', 'i', 'n'], false, []⟩
        ['u'] ⟨some ['a', 'g', 'a', 'i', 'n'], false, false, some ['s']⟩ '\n').2 :=
  prompt_branch_shadows_retry ⟨['a', 'g', 'a', 'i', 'n', '\n'], ['g', 'a', 'i', 'n'], false, []⟩
    ['u'] ['a', 'g', 'a', 'i', 'n'] false false (some ['s']) '\n'
    (by decide) (by decide)

/-- Witness for the amended C1: retry sequence `"try\n"` arriving at the
very start of the buffer, where the slicing does coincide with dropping
only the newline. -/
theorem retry_truncation_amended_witness :
    (output_step ⟨['P', ':'], ['t', 'r', 'y'], false, []⟩ ['u']
        ⟨some ['t', 'r', 'y'], false, false, some ['s']⟩ '\n').1.capture
        = some ((['t', 'r', 'y'] ++ ['\n']).take
            (Cfg.mk ['P', ':'] ['t', 'r', 'y'] false []).again_prompt.length)
    ∧ (output_step ⟨['P', ':'], ['t', 'r', 'y'], false, []⟩ ['u']
        ⟨some ['t', 'r', 'y'], false, false, some ['s']⟩ '\n').1.reprompt = true
    ∧ (['t', 'r', 'y'] ++ ['\n']
          = (Cfg.mk ['P', ':'] ['t', 'r', 'y'] false []).again_prompt ++ ['\n'] →
        (output_step ⟨['P', ':'], ['t', 'r', 'y'], false, []⟩ ['u']
          ⟨some ['t', 'r', 'y'], false, false, some ['s']⟩ '\n').1.capture
          = some (Cfg.mk ['P', ':'] ['t', 'r', 'y'] false []).again_prompt) :=
  retry_truncation_amended ⟨['P', ':'], ['t', 'r', 'y'], false, []⟩
    ['u'] ['t', 'r', 'y'] false false (some ['s']) '\n' (by decide) (by decide)

end Fabric
